import Mathlib

/-!
Shallow embedding of the SublimeConfluence plugin (`Confluence.py`) and
verification of a list of specification claims about it.

The embedding translates the pure data-manipulation parts of the source
directly into Lean; the external collaborators (the Sublime editor host,
the `requests` transport, `lxml`, `markdown2`, `mimetypes`, `os.path`)
are modelled as parameters of an `Env` structure, so that each embedded
operation is a pure function of the editor state and the environment.
Network activity is made observable as a list of `Call` values, and
uncaught Python exceptions are modelled by a `PyErr` sum.
-/

/-! ## Character and string helpers

Python string primitives used by the source, modelled on `List Char`
with `String` wrappers. All definitions are fuel-free structural
recursions (or fuelled with fuel at least the list length) so that
concrete evaluation by `decide`/`simp` works.
-/

/-- Python whitespace characters recognised by `str.strip()` /
`str.splitlines()` (the subset relevant to single-line text). -/
def isPyWS (c : Char) : Bool :=
  c = ' ' || c = '\t' || c = '\n' || c = '\r' || c = '\x0b' || c = '\x0c'

/-- Model of Python `str.strip()`. -/
def pyStrip (s : String) : String :=
  (((s.toList.dropWhile isPyWS).reverse.dropWhile isPyWS).reverse).asString

/-- Model of Python `str.startswith` / the anchored part of `re.match`
on character lists: `startsWithL pat s` holds when `pat` begins `s`. -/
def startsWithL : List Char → List Char → Bool
  | [], _ => true
  | _ :: _, [] => false
  | p :: ps, c :: cs => p = c && startsWithL ps cs

/-- Model of Python `in` on strings: `containsSub needle hay`. -/
def containsSub (needle : List Char) : List Char → Bool
  | [] => needle.isEmpty
  | c :: cs => startsWithL needle (c :: cs) || containsSub needle cs

/-- Splits a character list on a separator character, keeping empty
segments (model of Python `str.split(sep)` for a one-character `sep`). -/
def splitOnChar (sep : Char) : List Char → List (List Char)
  | [] => [[]]
  | c :: cs =>
    match splitOnChar sep cs with
    | [] => [[]]
    | l :: ls => if c = sep then [] :: l :: ls else (c :: l) :: ls

/-- Model of Python `str.splitlines()` for `\n`-separated text: like
splitting on `'\n'`, but a trailing newline does not produce a final
empty line (and `""` yields no lines). -/
def pySplitlines (s : String) : List String :=
  let parts := (splitOnChar '\n' s.toList).map List.asString
  match parts.getLast? with
  | some last => if last = "" then parts.dropLast else parts
  | none => parts

/-- Model of Python `"\n".join(lines)`. -/
def joinLines : List String → String
  | [] => ""
  | [l] => l
  | l :: ls => l ++ "\n" ++ joinLines ls

/-- Model of Python `"".join(contents.split("\n"))`: removes every
newline character (used when updating directly from an HTML buffer). -/
def removeNewlines (s : String) : String :=
  (s.toList.filter (fun c => c ≠ '\n')).asString

/-- Model of `os.path.basename` (POSIX): the part after the last `/`. -/
def pyBasename (s : String) : String :=
  ((s.toList.reverse.takeWhile (fun c => c ≠ '/')).reverse).asString

/-- Fuelled worker for `replaceAllL`; the fuel is at least the length of
the text, and one fuel unit is spent per character position, which
suffices because every step consumes at least one character. -/
def replaceAllAux (pat rep : List Char) : Nat → List Char → List Char
  | _, [] => []
  | 0, s => s
  | Nat.succ fuel, c :: cs =>
    if startsWithL pat (c :: cs) then
      rep ++ replaceAllAux pat rep fuel (List.drop (pat.length - 1) cs)
    else
      c :: replaceAllAux pat rep fuel cs

/-- Model of Python `str.replace(pat, rep)`: replaces every
non-overlapping occurrence, scanning left to right. (All patterns used
by the source are non-empty literals.) -/
def replaceAllL (pat rep s : List Char) : List Char :=
  if pat.isEmpty then s else replaceAllAux pat rep s.length s

/-- String wrapper for `replaceAllL`. -/
def replaceAllStr (pat rep s : String) : String :=
  (replaceAllL pat.toList rep.toList s.toList).asString

/-- Drops characters up to and including the first `':'`; `none` when
there is no colon. -/
def splitAtFirstColon : List Char → Option (List Char)
  | [] => none
  | c :: cs => if c = ':' then some cs else splitAtFirstColon cs

/-- Fuelled worker for `subColonRuns`; each iteration consumes at least
the first colon, so fuel equal to the length of the list suffices. -/
def subColonAux : Nat → List Char → List Char
  | 0, cs => cs
  | Nat.succ fuel, cs =>
    match splitAtFirstColon cs with
    | none => cs
    | some rest => subColonAux fuel (rest.dropWhile (fun c => c = ' '))

/-- Model of `re.sub("[^:]*: *", "", entry)` from
`Markup.get_meta_and_content`: `re.sub` removes every non-overlapping
match of "a (possibly empty) run of non-colon characters, a colon, and
any following spaces", scanning left to right. -/
def subColonRuns (s : String) : String :=
  (subColonAux s.toList.length s.toList).asString

/-- The suffix of a character list strictly after its last `':'` (the
whole list when there is no colon). -/
def suffixAfterLastColon (cs : List Char) : List Char :=
  (cs.reverse.takeWhile (fun c => c ≠ ':')).reverse

/-- Closed form of `subColonRuns` on character lists: on a list
containing a colon, the suffix after the last colon with the spaces
following that colon dropped; otherwise the list unchanged. -/
def remainderSpecL (cs : List Char) : List Char :=
  if ':' ∈ cs then (suffixAfterLastColon cs).dropWhile (fun c => c = ' ')
  else cs

/-- Closed form of `subColonRuns`, used by the amended claim C7: on a
line containing a colon, the stored remainder is the text after the
last colon with the spaces following that colon dropped. -/
def remainderSpec (s : String) : String :=
  (remainderSpecL s.toList).asString

/-! ## Front-Matter Parser (`Markup.get_meta_and_content`) -/

/-- The `meta` dictionary built by `Markup.get_meta_and_content`; each
key is absent until a matching line stores it. -/
structure FrontMatter where
  space_key : Option String := none
  ancestor_title : Option String := none
  title : Option String := none
deriving DecidableEq, Repr

/-- Model of `re.match(r"[Ss]pace: *", entry)`: the regex anchors at the
start of the line and the trailing `" *"` constrains nothing, so the
line matches exactly when it starts with `Space:` or `space:` — only
the first letter of the prefix is case-tolerant. -/
def matchSpaceLine (e : String) : Bool :=
  startsWithL "Space:".toList e.toList || startsWithL "space:".toList e.toList

/-- Model of `re.match(r"[Aa]ncestor Title: *", entry)`. -/
def matchAncestorLine (e : String) : Bool :=
  startsWithL "Ancestor Title:".toList e.toList ||
    startsWithL "ancestor Title:".toList e.toList

/-- Model of `re.match(r"[Tt]itle: *", entry)`. -/
def matchTitleLine (e : String) : Bool :=
  startsWithL "Title:".toList e.toList || startsWithL "title:".toList e.toList

/-- One iteration of the front-matter loop body on a non-blank line:
the `if`/`elif` chain of `Markup.get_meta_and_content`. -/
def metaStep (m : FrontMatter) (entry : String) : FrontMatter :=
  if matchSpaceLine entry then { m with space_key := some (subColonRuns entry) }
  else if matchAncestorLine entry then
    { m with ancestor_title := some (subColonRuns entry) }
  else if matchTitleLine entry then { m with title := some (subColonRuns entry) }
  else m

/-- The scanning loop of `Markup.get_meta_and_content`: non-blank lines
feed `metaStep`; the first blank line (`entry.strip()` falsy) stops the
loop and the remaining lines (`tmp[x + 1:]`) become the content. When
no blank line occurs the loop runs off the end of the list and the
content keeps its initial value `[]`. -/
def metaLoop (m : FrontMatter) : List String → FrontMatter × List String
  | [] => (m, [])
  | entry :: rest =>
    if pyStrip entry ≠ "" then metaLoop (metaStep m entry) rest
    else (m, rest)

/-- Model of `Markup.get_meta_and_content(contents)`. -/
def get_meta_and_content (contents : String) : FrontMatter × List String :=
  metaLoop {} (pySplitlines contents)

/-- Amended-claim (C7) reference step: the same three-prefix
classifier, storing the `remainderSpec` closed form of the remainder. -/
def metaSpecStep (m : FrontMatter) (entry : String) : FrontMatter :=
  if matchSpaceLine entry then { m with space_key := some (remainderSpec entry) }
  else if matchAncestorLine entry then
    { m with ancestor_title := some (remainderSpec entry) }
  else if matchTitleLine entry then { m with title := some (remainderSpec entry) }
  else m

/-- Amended-claim (C7) reference semantics for the front matter of the
lines before the first blank line: a left fold of `metaSpecStep`. -/
def metaSpec (lines : List String) : FrontMatter :=
  lines.foldl metaSpecStep {}

/-! ## HTML document model and the Image/Resource Rewriter
(`ConfluenceApi.extract_images`)

The body string is parsed by `lxml.html.fromstring` into an element
tree and re-serialized by `lxml.html.tostring`; both are external
library functions and appear as parameters of `Env`. Within the
embedding a document is identified with its parse tree `Html`. -/

/-- An lxml element tree: text, or an element with a tag, an attribute
list and children. -/
inductive Html where
  | text (s : String)
  | elem (tag : String) (attrs : List (String × String)) (children : List Html)

/-- A resource manifest entry (`{"filename": ..., "fullpath": ...}`). -/
structure Resource where
  filename : String
  fullpath : String
deriving DecidableEq, Repr

/-- Python exceptions that the embedded code can raise uncaught. -/
inductive PyErr where
  | indexError
  | keyError
  | valueError
  | importError
  | nameError
  | attributeError
  | typeError
deriving DecidableEq, Repr

/-- Model of `lxml` `Element.get(key)`: first attribute with the key. -/
def getAttr : List (String × String) → String → Option String
  | [], _ => none
  | (k, v) :: rest, key => if k = key then some v else getAttr rest key

/-- Model of `lxml` `Element.insert(n, x)`: inserts at position `n`,
appending when `n` is beyond the end of the child list. -/
def lxmlInsert (n : Nat) (x : Html) (l : List Html) : List Html :=
  l.take n ++ [x] ++ l.drop n

/-- Model of `if not file_dir[-1] in "/\\": file_dir += "/"` (POSIX
branch; the `win32` branch appends a backslash instead). `dirname` of
an absolute path is never empty, so the `[-1]` index is safe. -/
def ensureSep (d : String) : String :=
  match d.toList.getLast? with
  | some c => if c = '/' || c = '\\' then d else d ++ "/"
  | none => d ++ "/"

mutual

/-- The per-image loop of `ConfluenceApi.extract_images`, as a one-pass
transform in document (pre)order over the tree returned by
`lxml.html.fromstring`. Every `img` element becomes an `ac:image`
element whose attributes are replaced wholesale by
`ac:width="500"` (`min(w, 500)` with `w = 500`) and
`ac:align="center"`; when the resolved file exists a manifest entry is
appended and a `ri:attachment` child is inserted at position 1. An
`img` without a `src` attribute raises `AttributeError`
(`None.replace`). `isfile` models `os.path.isfile`. -/
def rewriteNode (isfile : String → Bool) (file_dir : String) :
    Html → Except PyErr (Html × List Resource)
  | .text s => .ok (.text s, [])
  | .elem tag attrs children =>
    if tag = "img" then
      match getAttr attrs "src" with
      | none => .error .attributeError
      | some src0 =>
        let src := replaceAllStr "%20" " " src0
        let newAttrs := [("ac:width", "500"), ("ac:align", "center")]
        match rewriteList isfile file_dir children with
        | .error e => .error e
        | .ok (children2, childRes) =>
          if isfile (file_dir ++ src) then
            let bn := pyBasename (file_dir ++ src)
            let link := Html.elem "ri:attachment" [("ri:filename", bn)] []
            .ok (.elem "ac:image" newAttrs (lxmlInsert 1 link children2),
                 ⟨bn, file_dir ++ src⟩ :: childRes)
          else
            .ok (.elem "ac:image" newAttrs children2, childRes)
    else
      match rewriteList isfile file_dir children with
      | .error e => .error e
      | .ok (children2, res) => .ok (.elem tag attrs children2, res)

/-- Child-list traversal for `rewriteNode`, concatenating manifests in
document order. -/
def rewriteList (isfile : String → Bool) (file_dir : String) :
    List Html → Except PyErr (List Html × List Resource)
  | [] => .ok ([], [])
  | h :: t =>
    match rewriteNode isfile file_dir h with
    | .error e => .error e
    | .ok (h2, r1) =>
      match rewriteList isfile file_dir t with
      | .error e => .error e
      | .ok (t2, r2) => .ok (h2 :: t2, r1 ++ r2)

end

mutual

/-- Number of elements with the given tag in a tree (document order). -/
def countTag (t : String) : Html → Nat
  | .text _ => 0
  | .elem tag _ children =>
    (if tag = t then 1 else 0) + countTagList t children

/-- Number of elements with the given tag in a forest. -/
def countTagList (t : String) : List Html → Nat
  | [] => 0
  | h :: hs => countTag t h + countTagList t hs

end

mutual

/-- Every `img` element in the tree carries a `src` attribute (the
rewriter raises `AttributeError` otherwise). -/
def imgsHaveSrc : Html → Bool
  | .text _ => true
  | .elem tag attrs children =>
    (decide (tag ≠ "img") || (getAttr attrs "src").isSome) && imgsHaveSrcList children

/-- Forest version of `imgsHaveSrc`. -/
def imgsHaveSrcList : List Html → Bool
  | [] => true
  | h :: hs => imgsHaveSrc h && imgsHaveSrcList hs

end

/-- The file the rewriter resolves an `img` element's `src` to:
`file_dir + src` with `%20` decoded to a space. -/
def resolvedSrc (file_dir : String) (attrs : List (String × String)) : String :=
  file_dir ++ replaceAllStr "%20" " " ((getAttr attrs "src").getD "")

mutual

/-- Number of `img` elements whose resolved local file exists — the
number of manifest entries the rewriter produces. -/
def countExistingImg (isfile : String → Bool) (file_dir : String) : Html → Nat
  | .text _ => 0
  | .elem tag attrs children =>
    (if tag = "img" && isfile (resolvedSrc file_dir attrs) then 1 else 0) +
      countExistingImgList isfile file_dir children

/-- Forest version of `countExistingImg`. -/
def countExistingImgList (isfile : String → Bool) (file_dir : String) :
    List Html → Nat
  | [] => 0
  | h :: hs =>
    countExistingImg isfile file_dir h + countExistingImgList isfile file_dir hs

end

/-- The three whole-document textual substitutions applied by
`extract_images` after the per-image loop, in source order: the literal
`[TOC]` token becomes the table-of-contents structured macro, and the
`atl_conf_` / `res_id_` namespace placeholders are remapped to `ac:` /
`ri:`. -/
def applySubstitutions (s : String) : String :=
  replaceAllStr "res_id_"
    "ri:"
    (replaceAllStr "atl_conf_"
      "ac:"
      (replaceAllStr "[TOC]"
        "<ac:structured-macro ac:name=\"toc\" ac:schema-version=\"1\" />" s))

/-! ## Page records, responses, transport and environment -/

/-- The local/remote representation of a page as used by the plugin: the
fields of `result.json()` that the source reads. An empty `id` models a
missing or falsy `id` entry (Python `content.get('id')` returning
`None` or `""` — both falsy in the dispatch test). -/
structure PageRecord where
  id : String
  title : String
  space_key : String
  version : Nat
  body_value : String
  base : String
  webui : String
deriving DecidableEq, Repr

/-- Response of `GET content/search` (`{"results": [...]}`). -/
structure SearchResponse where
  ok : Bool
  reason : String
  text : String
  results : List PageRecord
deriving DecidableEq, Repr

/-- Response of the content `GET`/`POST`/`PUT` endpoints, with its
parsed `json()` body. -/
structure ContentResponse where
  ok : Bool
  reason : String
  text : String
  json : PageRecord
deriving DecidableEq, Repr

/-- Response of the attachment upload endpoint (its body is never
parsed by the source). -/
structure AttachResponse where
  ok : Bool
  reason : String
  text : String
deriving DecidableEq, Repr

/-- The `version` object of a wire payload
(`dict(number=..., minorEdit=False)`). -/
structure VersionInfo where
  number : Nat
  minorEdit : Bool
deriving DecidableEq, Repr

/-- The request body sent to the create/update endpoints. The
`body.storage.value` string is `body`; `body.storage.representation` is
the constant `"storage"` and is omitted. `ancestors` is the list of
ancestor ids (`[dict(id=ancestor_id)]` with `int` ids). -/
structure WirePayload where
  id : Option String
  type : String
  title : String
  space_key : String
  ancestors : Option (List Int)
  version : Option VersionInfo
  body : Option String
deriving DecidableEq, Repr

/-- The multipart upload request built by `upload_child_attachment`:
method, sub-uri, effective headers, and the `files` tuple's filename
and content type (the opened binary file itself is not modelled). -/
structure AttachRequest where
  method : String
  sub_uri : String
  headers : List (String × String)
  filename : String
  contentType : String
deriving DecidableEq, Repr

/-- One observable network call (the `_request` pre-authentication
`GET` of the base uri, issued before every call, is not tracked). -/
inductive Call where
  | get (sub_uri : String)
  | search (cql : String)
  | post (data : WirePayload)
  | put (content_id : String) (data : WirePayload)
  | attach (req : AttachRequest)
  | delete (sub_uri : String)
deriving DecidableEq, Repr

/-- The transport (`requests` session) as a response oracle keyed by
the same data the wire would carry. -/
structure Transport where
  get_content : String → ContentResponse
  search : String → SearchResponse
  post_content : WirePayload → ContentResponse
  put_content : String → WirePayload → ContentResponse
  put_attachment : AttachRequest → AttachResponse

/-- External collaborators of the embedded code: the optional
`lxml`-backed capability flag and parser/serializer, the `os.path` and
`mimetypes` primitives, the markup converters, and the transport. -/
structure Env where
  htmlPrettify : Bool
  parseHtml : String → Html
  tostring : Html → String
  dirOf : String → String
  isfile : String → Bool
  guessType : String → Option String
  markdown : String → String
  docutils : Option (String → String)
  transport : Transport

/-- Default headers of `_request` (`{"Content-Type": "application/json"}`),
replaced wholesale when a non-`None` `headers` kwarg is passed. -/
def effectiveHeaders : Option (List (String × String)) → List (String × String)
  | none => [("Content-Type", "application/json")]
  | some h => h

/-! ## ConfluenceApi operations -/

/-- Model of `ConfluenceApi.get_content_by_title`: an exact-title,
quote-delimited cql query scoped to a space, via `GET content/search`. -/
def get_content_by_title (t : Transport) (space_key title : String) :
    SearchResponse × Call :=
  let cql := "type=page AND space=\"" ++ space_key ++ "\" AND title=\"" ++
    title ++ "\""
  (t.search cql, Call.search cql)

/-- Model of `ConfluenceApi.get_content_by_id`: a `GET` of the content
with body, version and space explicitly expanded. -/
def get_content_by_id (t : Transport) (content_id : String) :
    ContentResponse × Call :=
  let uri := "content/" ++ content_id ++ "?expand=body.storage,version,space"
  (t.get_content uri, Call.get uri)

/-- Model of `ConfluenceApi.upload_child_attachment`: guesses a content
type from the attachment's full path (`mimetypes.guess_type`), falls
back to `multipart/form-data`, and issues a `PUT` of
`content/{id}/child/attachment` whose `headers` kwarg replaces the
default json headers with the `X-Atlassian-Token: no-check` header. -/
def upload_child_attachment (env : Env) (content_id : String)
    (attachment_dict : Resource) : AttachResponse × AttachRequest :=
  let content_type := (env.guessType attachment_dict.fullpath).getD
    "multipart/form-data"
  let req : AttachRequest :=
    { method := "put"
      sub_uri := "content/" ++ content_id ++ "/child/attachment"
      headers := effectiveHeaders (some [("X-Atlassian-Token", "no-check")])
      filename := attachment_dict.filename
      contentType := content_type }
  (env.transport.put_attachment req, req)

/-- Result of `ConfluenceApi.create_or_update_attachments`: the
response it returns, or the `NameError` raised by `return upload_resp`
when the loop body never ran (`resources` empty, `upload_resp` unbound). -/
inductive UploadResult where
  | resp (r : AttachResponse)
  | nameError
deriving DecidableEq, Repr

/-- Model of `ConfluenceApi.create_or_update_attachments`: uploads each
resource in order, returning the first non-ok response immediately and
otherwise the last response; also returns the requests actually issued,
in order. On an empty resource list the trailing `return upload_resp`
raises `NameError`. -/
def create_or_update_attachments (env : Env) (content_id : String) :
    List Resource → UploadResult × List AttachRequest
  | [] => (.nameError, [])
  | img :: rest =>
    let (upload_resp, req) := upload_child_attachment env content_id img
    if upload_resp.ok then
      match rest with
      | [] => (.resp upload_resp, [req])
      | _ :: _ =>
        let (res, reqs) := create_or_update_attachments env content_id rest
        (res, req :: reqs)
    else (.resp upload_resp, [req])

/-! ## Markup converter (`Markup.to_html`) -/

/-- Model of `syntax.split(".")[0].split("/")[-1]`: strip an
extension-like suffix, then take the last path segment. -/
def syntaxBaseName (syn : String) : String :=
  (splitOnChar '/' ((splitOnChar '.' syn.toList).headD [])).getLastD [] |>.asString

/-- Truthiness of the `to_html` result as tested by its callers with
`if not new_content:` — `None` (unsupported markup) and the empty
string are both falsy. -/
def optStrFalsy : Option String → Bool
  | none => true
  | some s => s = ""

/-- Model of `Markup.to_html`. The registry maps the three
Markdown-family names to `markdown_to_html` (the external
`markdown2.markdown`, `env.markdown`) and `reStructuredText` to
`rst_to_html`, which re-raises `ImportError` when `docutils` is absent.
An unregistered name is reported (`sublime.error_message`) and `None`
is returned; an empty conversion is reported but still returned. -/
def to_html (env : Env) (content : String) (syn : String) :
    Except PyErr (Option String) :=
  let base := syntaxBaseName syn
  if base = "Markdown" || base = "Markdown Extended" ||
      base = "Markdown (Standard)" then
    .ok (some (env.markdown content))
  else if base = "reStructuredText" then
    match env.docutils with
    | some publish_string => .ok (some (publish_string content))
    | none => .error .importError
  else .ok none

/-! ## Image extraction and content create/update
(`ConfluenceApi.extract_images`, `create_content`, `update_content`) -/

/-- Model of `ConfluenceApi.extract_images` on a wire payload: when the
`lxml` capability is present, parse `body.storage.value`, rewrite every
`img` element (collecting the resource manifest), re-serialize, apply
the three whole-document substitutions, and store the result back into
the payload; without `lxml` the call is a passthrough with an empty
manifest. `fromstring(None)` raises `TypeError` when the body is
`None`. -/
def extract_images (env : Env) (content_data : WirePayload)
    (source_filename : String) : Except PyErr (WirePayload × List Resource) :=
  if env.htmlPrettify then
    match content_data.body with
    | none => .error .typeError
    | some bodyVal =>
      let doc := env.parseHtml bodyVal
      let file_dir := ensureSep (env.dirOf source_filename)
      match rewriteNode env.isfile file_dir doc with
      | .error e => .error e
      | .ok (doc2, resources) =>
        .ok ({ content_data with body := some (applySubstitutions (env.tostring doc2)) },
             resources)
  else .ok (content_data, [])

/-- The response value returned by `create_content`/`update_content`:
either the content endpoint's response or a failing attachment upload
response (each exposing `ok`). -/
inductive AnyResp where
  | content (r : ContentResponse)
  | attach (r : AttachResponse)
deriving DecidableEq, Repr

/-- The `ok` flag of either response kind. -/
def AnyResp.isOk : AnyResp → Bool
  | .content r => r.ok
  | .attach r => r.ok

/-- The parsed `json()` body of either response kind (`none` for an
attachment response, whose body the source never parses as a page). -/
def AnyResp.jsonPage : AnyResp → Option PageRecord
  | .content r => some r.json
  | .attach _ => none

/-- Model of `ConfluenceApi.create_content`: extract images, `POST` the
rewritten payload, and, when the manifest is non-empty and the post
succeeded, upload the attachments, returning the upload failure in
place of the post response when an upload fails. Returns the issued
calls alongside; a Python exception propagates as `.error`. -/
def create_content (env : Env) (content_data : WirePayload)
    (filename : String) : Except PyErr (AnyResp × WirePayload) × List Call :=
  match extract_images env content_data filename with
  | .error e => (.error e, [])
  | .ok (new_content_data, images) =>
    let update_content_resp := env.transport.post_content new_content_data
    let c := Call.post new_content_data
    if !update_content_resp.ok then
      (.ok (.content update_content_resp, new_content_data), [c])
    else
      let content_id := update_content_resp.json.id
      match images with
      | [] => (.ok (.content update_content_resp, new_content_data), [c])
      | _ :: _ =>
        let (upload_resp, reqs) :=
          create_or_update_attachments env content_id images
        let calls := c :: reqs.map Call.attach
        match upload_resp with
        | .nameError => (.error .nameError, calls)
        | .resp u =>
          if u.ok then (.ok (.content update_content_resp, new_content_data), calls)
          else (.ok (.attach u, new_content_data), calls)

/-- Model of `ConfluenceApi.update_content`: like `create_content` but
with a `PUT` of `content/{content_id}`. -/
def update_content (env : Env) (content_id : String)
    (content_data : WirePayload) (filename : String) :
    Except PyErr (AnyResp × WirePayload) × List Call :=
  match extract_images env content_data filename with
  | .error e => (.error e, [])
  | .ok (new_content_data, images) =>
    let update_content_resp := env.transport.put_content content_id new_content_data
    let c := Call.put content_id new_content_data
    if !update_content_resp.ok then
      (.ok (.content update_content_resp, new_content_data), [c])
    else
      match images with
      | [] => (.ok (.content update_content_resp, new_content_data), [c])
      | _ :: _ =>
        let (upload_resp, reqs) :=
          create_or_update_attachments env content_id images
        let calls := c :: reqs.map Call.attach
        match upload_resp with
        | .nameError => (.error .nameError, calls)
        | .resp u =>
          if u.ok then (.ok (.content update_content_resp, new_content_data), calls)
          else (.ok (.attach u, new_content_data), calls)

/-! ## The editor commands (`PostConfluencePageCommand.post`,
`UpdateConfluencePageCommand`) -/

/-- The reason string of either response kind. -/
def AnyResp.reason : AnyResp → String
  | .content r => r.reason
  | .attach r => r.reason

/-- The editor-visible state a command runs against: the
`confluence_content` settings blob, the buffer text, the declared
markup name (`view.settings().get("syntax")`) and the file path. -/
structure ViewState where
  confluence_content : Option PageRecord
  bufferText : String
  syntaxName : String
  file_name : String

/-- How a command run ends: success status, a silent `return`, a
reported error message (`sublime.error_message`), or an uncaught
Python exception. -/
inductive Outcome where
  | success
  | silent
  | errorMsg (msg : String)
  | exn (e : PyErr)
deriving DecidableEq, Repr

/-- Observable result of one command run: its outcome, the network
calls it issued in order, and the value (if any) it stored into the
view's `confluence_content` setting. -/
structure CmdResult where
  outcome : Outcome
  calls : List Call
  newSetting : Option PageRecord
deriving DecidableEq, Repr

/-- Model of Python `int(...)` on the id strings the wiki returns. -/
def pyInt (s : String) : Option Int := s.toInt?

/-- Model of `PostConfluencePageCommand.post`: parse front matter,
convert the body, look the ancestor up by exact title, build the wire
payload with `ancestors=[dict(id=ancestor_id)]` and no version, create
the content, and on success store the server's json into the view
settings. A missing front-matter key raises `KeyError`; an ok ancestor
search with zero results raises `IndexError` at
`response.json()["results"][0]`. -/
def postCmd (env : Env) (st : ViewState) : CmdResult :=
  let (meta, content) := get_meta_and_content st.bufferText
  match to_html env (joinLines content) st.syntaxName with
  | .error e => { outcome := .exn e, calls := [], newSetting := none }
  | .ok new_content =>
    if optStrFalsy new_content then
      { outcome := .silent, calls := [], newSetting := none }
    else
      match meta.space_key, meta.ancestor_title with
      | none, _ => { outcome := .exn .keyError, calls := [], newSetting := none }
      | _, none => { outcome := .exn .keyError, calls := [], newSetting := none }
      | some space_key, some ancestor_title =>
        let (response, c1) := get_content_by_title env.transport space_key ancestor_title
        if response.ok then
          match response.results with
          | [] => { outcome := .exn .indexError, calls := [c1], newSetting := none }
          | ancestor :: _ =>
            match pyInt ancestor.id with
            | none => { outcome := .exn .valueError, calls := [c1], newSetting := none }
            | some ancestor_id =>
              match meta.title with
              | none => { outcome := .exn .keyError, calls := [c1], newSetting := none }
              | some title =>
                let data : WirePayload :=
                  { id := none, type := "page", title := title
                    space_key := space_key, ancestors := some [ancestor_id]
                    version := none, body := new_content }
                match create_content env data st.file_name with
                | (.error e, calls) =>
                  { outcome := .exn e, calls := c1 :: calls, newSetting := none }
                | (.ok (result, _mod_content), calls) =>
                  if result.isOk then
                    { outcome := .success, calls := c1 :: calls
                      newSetting := result.jsonPage }
                  else
                    { outcome := .errorMsg ("Can not create content, reason: " ++
                        result.reason)
                      calls := c1 :: calls, newSetting := none }
        else
          { outcome := .errorMsg ("Can not get ancestor, reason: " ++ response.reason)
            calls := [c1], newSetting := none }

/-- Result of `UpdateConfluencePageCommand.update_from_editor`,
additionally exposing the wire payload (`data`) the method constructed
(absent when the conversion raised before `data` was built). -/
structure EditorUpdateResult where
  data : Option WirePayload
  outcome : Outcome
  calls : List Call
  newSetting : Option PageRecord

/-- Forgets the exposed payload of an `EditorUpdateResult`. -/
def EditorUpdateResult.toCmdResult (r : EditorUpdateResult) : CmdResult :=
  { outcome := r.outcome, calls := r.calls, newSetting := r.newSetting }

/-- The body recomputation of `update_from_editor`: the raw buffer with
newlines stripped when the declared markup name contains `"HTML"`,
otherwise the front-matter/markup pipeline. -/
def editorNewContent (env : Env) (st : ViewState) : Except PyErr (Option String) :=
  if containsSub "HTML".toList st.syntaxName.toList then
    .ok (some (removeNewlines st.bufferText))
  else
    let (_meta, content) := get_meta_and_content st.bufferText
    to_html env (joinLines content) st.syntaxName

/-- The wire payload `data` built by `update_from_editor`: the bound
record's id, title and space key, the locally held version number plus
one with `minorEdit=False`, and the recomputed body. -/
def editorPayload (c : PageRecord) (new_content : Option String) : WirePayload :=
  { id := some c.id, type := "page", title := c.title
    space_key := c.space_key, ancestors := none
    version := some { number := c.version + 1, minorEdit := false }
    body := new_content }

/-- Model of `UpdateConfluencePageCommand.update_from_editor`: build
the payload from the bound record `c` (the stored
`confluence_content`), with `version.number` the locally held number
plus one and `minorEdit=False`; recompute the body
(`editorNewContent`); `PUT` it via `update_content`; on a successful
response store the server's returned json into the view settings. An
exception inside the `try` block is caught, but the handler's
`print(response.text)` then raises `NameError` because `response` was
never bound. -/
def update_from_editor (env : Env) (st : ViewState) (c : PageRecord) :
    EditorUpdateResult :=
  let content_id := c.id
  match editorNewContent env st with
  | .error e => { data := none, outcome := .exn e, calls := [], newSetting := none }
  | .ok new_content =>
    let data : WirePayload := editorPayload c new_content
    match update_content env content_id data st.file_name with
    | (.error _, calls) =>
      { data := some data, outcome := .exn .nameError, calls := calls
        newSetting := none }
    | (.ok (response, _mod_content), calls) =>
      if response.isOk then
        { data := some data, outcome := .success, calls := calls
          newSetting := response.jsonPage }
      else
        { data := some data
          outcome := .errorMsg ("Can't update content, reason: " ++ response.reason)
          calls := calls, newSetting := none }

/-- Model of `UpdateConfluencePageCommand.update_from_source`: with no
usable local binding, convert the buffer, re-resolve the page by
space+title over the network, fetch its full record by id for the
authoritative version, and `PUT` an update with that version plus one.
A falsy conversion reports the invalid-page error before any network
call. -/
def update_from_source (env : Env) (st : ViewState) : CmdResult :=
  let (meta, content) := get_meta_and_content st.bufferText
  match to_html env (joinLines content) st.syntaxName with
  | .error e => { outcome := .exn e, calls := [], newSetting := none }
  | .ok new_content =>
    if optStrFalsy new_content then
      { outcome := .errorMsg
          "Can't update: this doesn't appear to be a valid Confluence page."
        calls := [], newSetting := none }
    else
      match meta.space_key, meta.title with
      | none, _ => { outcome := .exn .keyError, calls := [], newSetting := none }
      | _, none => { outcome := .exn .keyError, calls := [], newSetting := none }
      | some space_key, some title =>
        let (get_content_by_title_resp, c1) :=
          get_content_by_title env.transport space_key title
        if get_content_by_title_resp.ok then
          match get_content_by_title_resp.results with
          | [] => { outcome := .exn .indexError, calls := [c1], newSetting := none }
          | first :: _ =>
            let content_id := first.id
            let (get_content_by_id_resp, c2) :=
              get_content_by_id env.transport content_id
            if get_content_by_id_resp.ok then
              let curr := get_content_by_id_resp.json
              let version_number := curr.version + 1
              let data : WirePayload :=
                { id := some content_id, type := "page", title := title
                  space_key := space_key, ancestors := none
                  version := some { number := version_number, minorEdit := false }
                  body := new_content }
              match update_content env content_id data st.file_name with
              | (.error e, calls) =>
                { outcome := .exn e, calls := c1 :: c2 :: calls, newSetting := none }
              | (.ok (update_content_resp, _mod_content), calls) =>
                if update_content_resp.isOk then
                  { outcome := .success, calls := c1 :: c2 :: calls
                    newSetting := update_content_resp.jsonPage }
                else
                  { outcome := .errorMsg ("Can not update content, reason: " ++
                      update_content_resp.reason)
                    calls := c1 :: c2 :: calls, newSetting := none }
            else
              { outcome := .errorMsg ("Can not get content by id, reason: " ++
                  get_content_by_id_resp.reason)
                calls := [c1, c2], newSetting := none }
        else
          { outcome := .errorMsg ("Can not get content by title, reason: " ++
              get_content_by_title_resp.reason)
            calls := [c1], newSetting := none }

/-- Model of `UpdateConfluencePageCommand.run`'s dispatch: the update
goes through `update_from_editor` exactly when the stored
`confluence_content` is truthy and its `id` entry is truthy
(`self.content and self.content.get('id')`); otherwise it goes through
`update_from_source`. -/
def updateCmdRun (env : Env) (st : ViewState) : CmdResult :=
  match st.confluence_content with
  | some c =>
    if c.id ≠ "" then (update_from_editor env st c).toCmdResult
    else update_from_source env st
  | none => update_from_source env st

/-- The `NEW` state of the spec's Page Synchronizer: no locally stored
record, or a record whose `id` is absent/falsy. -/
def isNewState (st : ViewState) : Bool :=
  match st.confluence_content with
  | none => true
  | some c => c.id = ""

/-! ## Helper lemmas -/

/-- The front-matter loop never assigns a body when no line is blank:
the loop runs off the end of the line list and `content` keeps its
initial empty value. -/
theorem metaLoop_no_blank :
    ∀ (lines : List String) (m : FrontMatter),
      (∀ l ∈ lines, pyStrip l ≠ "") → (metaLoop m lines).2 = []
  | [], _, _ => rfl
  | entry :: rest, m, h => by
    have he : pyStrip entry ≠ "" := h entry (by simp)
    simp only [metaLoop, if_pos he]
    exact metaLoop_no_blank rest (metaStep m entry)
      (fun l hl => h l (by simp [hl]))

/-- A non-empty resource list never produces the `NameError` result in
`create_or_update_attachments`. -/
theorem create_or_update_attachments_ne_nameError :
    ∀ (rs : List Resource), rs ≠ [] → ∀ (env : Env) (content_id : String),
      (create_or_update_attachments env content_id rs).1 ≠ .nameError
  | [], hne, _, _ => absurd rfl hne
  | r :: rest, _, env, content_id => by
    simp only [create_or_update_attachments]
    cases hok : (upload_child_attachment env content_id r).1.ok with
    | false => simp [hok]
    | true =>
      cases rest with
      | nil => simp [hok]
      | cons r2 rest2 =>
        simp only [hok, if_true]
        exact create_or_update_attachments_ne_nameError (r2 :: rest2)
          (by simp) env content_id

mutual

/-- The only exception the per-image rewriting loop raises is the
`AttributeError` from an `img` element without a `src` attribute. -/
theorem rewriteNode_error_attr (f : String → Bool) (d : String) :
    ∀ (h : Html) (e : PyErr), rewriteNode f d h = .error e → e = .attributeError
  | .text _, _, he => by simp [rewriteNode] at he
  | .elem tag attrs children, e, he => by
    by_cases htag : tag = "img"
    · subst htag
      simp only [rewriteNode, if_pos rfl] at he
      cases hsrc : getAttr attrs "src" with
      | none => simp [hsrc] at he; exact he.symm
      | some src0 =>
        simp only [hsrc] at he
        cases hrl : rewriteList f d children with
        | error e2 =>
          simp only [hrl] at he
          have := rewriteList_error_attr f d children e2 hrl
          cases he
          exact this
        | ok p =>
          simp only [hrl] at he
          cases hf : f (d ++ replaceAllStr "%20" " " src0) <;> simp [hf] at he
    · simp only [rewriteNode, if_neg htag] at he
      cases hrl : rewriteList f d children with
      | error e2 =>
        simp only [hrl] at he
        have := rewriteList_error_attr f d children e2 hrl
        cases he
        exact this
      | ok p => simp [hrl] at he

/-- Forest version of `rewriteNode_error_attr`. -/
theorem rewriteList_error_attr (f : String → Bool) (d : String) :
    ∀ (l : List Html) (e : PyErr), rewriteList f d l = .error e → e = .attributeError
  | [], _, he => by simp [rewriteList] at he
  | h :: t, e, he => by
    simp only [rewriteList] at he
    cases hn : rewriteNode f d h with
    | error e2 =>
      simp only [hn] at he
      have := rewriteNode_error_attr f d h e2 hn
      cases he
      exact this
    | ok p =>
      simp only [hn] at he
      cases ht : rewriteList f d t with
      | error e2 =>
        simp only [ht] at he
        have := rewriteList_error_attr f d t e2 ht
        cases he
        exact this
      | ok p2 => simp [ht] at he

end

/-- The image extraction step never raises `NameError`. -/
theorem extract_images_ne_nameError (env : Env) (data : WirePayload)
    (fn : String) : extract_images env data fn ≠ .error .nameError := by
  unfold extract_images
  split
  · cases hb : data.body with
    | none => simp [hb]
    | some bodyVal =>
      simp only [hb]
      cases hr : rewriteNode env.isfile (ensureSep (env.dirOf fn)) (env.parseHtml bodyVal) with
      | error e =>
        have := rewriteNode_error_attr _ _ _ _ hr
        subst this
        simp [hr]
      | ok p => simp [hr]
  · simp

mutual

/-- A tree without `img` elements passes through the per-image loop
unchanged, contributing no manifest entries. -/
theorem rewriteNode_noImg (f : String → Bool) (d : String) :
    ∀ h : Html, countTag "img" h = 0 → rewriteNode f d h = .ok (h, [])
  | .text _, _ => rfl
  | .elem tag attrs children, hc => by
    have htag : tag ≠ "img" := by
      intro he
      simp [countTag, he] at hc
    have hlist : countTagList "img" children = 0 := by
      simp [countTag] at hc
      exact hc.2
    simp [rewriteNode, htag, rewriteList_noImg f d children hlist]

/-- Forest version of `rewriteNode_noImg`. -/
theorem rewriteList_noImg (f : String → Bool) (d : String) :
    ∀ l : List Html, countTagList "img" l = 0 → rewriteList f d l = .ok (l, [])
  | [], _ => rfl
  | h :: t, hc => by
    have h1 : countTag "img" h = 0 := by
      simp [countTagList] at hc
      exact hc.1
    have h2 : countTagList "img" t = 0 := by
      simp [countTagList] at hc
      exact hc.2
    simp [rewriteList, rewriteNode_noImg f d h h1, rewriteList_noImg f d t h2]

end

/-- Tag counting distributes over list concatenation. -/
theorem countTagList_append (t : String) :
    ∀ l1 l2 : List Html,
      countTagList t (l1 ++ l2) = countTagList t l1 + countTagList t l2
  | [], l2 => by simp [countTagList]
  | h :: l1, l2 => by
    simp only [List.cons_append, countTagList, List.append_eq]
    rw [countTagList_append t l1 l2]
    omega

/-- Inserting one element (lxml `insert` semantics) adds exactly that
element's tag count. -/
theorem countTagList_lxmlInsert (t : String) (n : Nat) (x : Html) (l : List Html) :
    countTagList t (lxmlInsert n x l) = countTag t x + countTagList t l := by
  unfold lxmlInsert
  rw [countTagList_append, countTagList_append]
  have h3 : countTagList t (List.take n l) + countTagList t (List.drop n l) =
      countTagList t l := by
    rw [← countTagList_append, List.take_append_drop]
  simp only [countTagList] at *
  omega

mutual

/-- When every `img` element carries a `src` attribute, the per-image
loop raises nothing, produces exactly one manifest entry per `img`
whose resolved file exists, rewrites every `img` into an `ac:image`
macro, and leaves no `img` element behind. -/
theorem rewriteNode_src_total (f : String → Bool) (d : String) :
    ∀ h : Html, imgsHaveSrc h = true →
      ∃ p, rewriteNode f d h = .ok p ∧
        p.2.length = countExistingImg f d h ∧
        countTag "img" p.1 = 0 ∧
        countTag "ac:image" p.1 = countTag "img" h + countTag "ac:image" h
  | .text s, _ => ⟨(.text s, []), rfl, by simp [countExistingImg, countTag]⟩
  | .elem tag attrs children, hs => by
    have hsl : imgsHaveSrcList children = true := by
      simp [imgsHaveSrc] at hs
      exact hs.2
    obtain ⟨⟨l2, res⟩, heq, hlen, himg, hac⟩ :=
      rewriteList_src_total f d children hsl
    by_cases htag : tag = "img"
    · subst htag
      have hsrc : (getAttr attrs "src").isSome = true := by
        simp [imgsHaveSrc] at hs
        exact hs.1
      obtain ⟨src0, hsrc0⟩ := Option.isSome_iff_exists.mp hsrc
      have hres : resolvedSrc d attrs = d ++ replaceAllStr "%20" " " src0 := by
        simp [resolvedSrc, hsrc0]
      by_cases hf : f (d ++ replaceAllStr "%20" " " src0) = true
      · refine ⟨(.elem "ac:image" [("ac:width", "500"), ("ac:align", "center")]
            (lxmlInsert 1
              (Html.elem "ri:attachment"
                [("ri:filename", pyBasename (d ++ replaceAllStr "%20" " " src0))] [])
              l2),
            ⟨pyBasename (d ++ replaceAllStr "%20" " " src0),
              d ++ replaceAllStr "%20" " " src0⟩ :: res), ?_, ?_, ?_, ?_⟩
        · simp [rewriteNode, hsrc0, heq, hf]
        · simp [countExistingImg, hres, hf, List.length_cons, hlen]
          omega
        · simp [countTag, countTagList_lxmlInsert, himg, countTagList]
        · simp [countTag, countTagList_lxmlInsert, countTagList, hac]
          omega
      · refine ⟨(.elem "ac:image" [("ac:width", "500"), ("ac:align", "center")] l2,
            res), ?_, ?_, ?_, ?_⟩
        · simp [rewriteNode, hsrc0, heq, hf]
        · simp [countExistingImg, hres, hf, hlen]
        · simp [countTag, himg]
        · simp [countTag, hac]
          omega
    · refine ⟨(.elem tag attrs l2, res), ?_, ?_, ?_, ?_⟩
      · simp [rewriteNode, htag, heq]
      · simp [countExistingImg, htag, hlen]
      · simp [countTag, htag, himg]
      · simp only [countTag, hac, if_neg htag]
        omega

/-- Forest version of `rewriteNode_src_total`. -/
theorem rewriteList_src_total (f : String → Bool) (d : String) :
    ∀ l : List Html, imgsHaveSrcList l = true →
      ∃ p, rewriteList f d l = .ok p ∧
        p.2.length = countExistingImgList f d l ∧
        countTagList "img" p.1 = 0 ∧
        countTagList "ac:image" p.1 =
          countTagList "img" l + countTagList "ac:image" l
  | [], _ => ⟨([], []), rfl, by simp [countExistingImgList, countTagList]⟩
  | h :: t, hs => by
    have h1 : imgsHaveSrc h = true := by
      simp [imgsHaveSrcList] at hs
      exact hs.1
    have h2 : imgsHaveSrcList t = true := by
      simp [imgsHaveSrcList] at hs
      exact hs.2
    obtain ⟨⟨h2node, res1⟩, heq1, hlen1, himg1, hac1⟩ :=
      rewriteNode_src_total f d h h1
    obtain ⟨⟨t2, res2⟩, heq2, hlen2, himg2, hac2⟩ :=
      rewriteList_src_total f d t h2
    refine ⟨(h2node :: t2, res1 ++ res2), ?_, ?_, ?_, ?_⟩
    · simp [rewriteList, heq1, heq2]
    · simp [countExistingImgList, hlen1, hlen2]
    · simp [countTagList, himg1, himg2]
    · simp only [countTagList, hac1, hac2]
      omega

end

/-- Image extraction only rewrites the body of the payload: every other
field — in particular the `version` object — is preserved. -/
theorem extract_images_preserves_version (env : Env) (data : WirePayload)
    (fn : String) (nd : WirePayload) (imgs : List Resource)
    (h : extract_images env data fn = .ok (nd, imgs)) :
    nd.version = data.version := by
  unfold extract_images at h
  split at h
  · cases hb : data.body with
    | none => simp [hb] at h
    | some bodyVal =>
      simp only [hb] at h
      cases hr : rewriteNode env.isfile (ensureSep (env.dirOf fn))
          (env.parseHtml bodyVal) with
      | error e => simp [hr] at h
      | ok p =>
        simp only [hr] at h
        cases h
        rfl
  · cases h
    rfl

/-- Every `PUT content/{id}` call issued by `update_content` targets the
given content id and carries a payload whose `version` is the one of
the payload passed in (image extraction does not touch it). -/
theorem update_content_put_calls (env : Env) (content_id : String)
    (data : WirePayload) (fn : String) (cid2 : String) (nd : WirePayload)
    (h : Call.put cid2 nd ∈ (update_content env content_id data fn).2) :
    cid2 = content_id ∧ nd.version = data.version := by
  unfold update_content at h
  cases hext : extract_images env data fn with
  | error e => simp [hext] at h
  | ok p =>
    obtain ⟨new_data, images⟩ := p
    have hver := extract_images_preserves_version env data fn new_data images hext
    simp only [hext] at h
    cases hok : (env.transport.put_content content_id new_data).ok with
    | false =>
      simp [hok] at h
      exact ⟨h.1, by rw [h.2]; exact hver⟩
    | true =>
      cases images with
      | nil =>
        simp [hok] at h
        exact ⟨h.1, by rw [h.2]; exact hver⟩
      | cons i is =>
        cases hu : (create_or_update_attachments env content_id (i :: is)).1 with
        | nameError =>
          exact absurd hu
            (create_or_update_attachments_ne_nameError (i :: is) (by simp) env content_id)
        | resp u =>
          cases hu2 : u.ok <;>
          · simp [hok, hu, hu2] at h
            exact ⟨h.1, by rw [h.2]; exact hver⟩

/-- When `update_content` returns a successful response, that response
is the transport's `PUT` response for the rewritten payload, the `PUT`
call is in the issued-call list, and the payload sent kept the caller's
`version`. -/
theorem update_content_ok_resp (env : Env) (content_id : String)
    (data : WirePayload) (fn : String) (resp : AnyResp) (m : WirePayload)
    (calls : List Call)
    (h : update_content env content_id data fn = (.ok (resp, m), calls))
    (hok : resp.isOk = true) :
    ∃ nd, resp = .content (env.transport.put_content content_id nd) ∧
      Call.put content_id nd ∈ calls ∧ nd.version = data.version := by
  unfold update_content at h
  cases hext : extract_images env data fn with
  | error e => simp [hext] at h
  | ok p =>
    obtain ⟨new_data, images⟩ := p
    have hver := extract_images_preserves_version env data fn new_data images hext
    simp only [hext] at h
    cases hok2 : (env.transport.put_content content_id new_data).ok with
    | false =>
      simp [hok2] at h
      obtain ⟨⟨h1, _⟩, _⟩ := h
      rw [← h1] at hok
      simp [AnyResp.isOk, hok2] at hok
    | true =>
      cases images with
      | nil =>
        simp [hok2] at h
        obtain ⟨⟨h1, _⟩, h3⟩ := h
        exact ⟨new_data, h1.symm, by rw [← h3]; simp, hver⟩
      | cons i is =>
        cases hu : (create_or_update_attachments env content_id (i :: is)).1 with
        | nameError => simp [hok2, hu] at h
        | resp u =>
          cases hu2 : u.ok with
          | false =>
            simp [hok2, hu, hu2] at h
            obtain ⟨⟨h1, _⟩, _⟩ := h
            rw [← h1] at hok
            simp [AnyResp.isOk, hu2] at hok
          | true =>
            simp [hok2, hu, hu2] at h
            obtain ⟨⟨h1, _⟩, h3⟩ := h
            exact ⟨new_data, h1.symm, by rw [← h3]; simp, hver⟩

/-! ## Claim theorems -/

/-- C3: for every update of a bound record through
`update_from_editor`, the wire payload — both the `data` the method
builds and any `PUT` payload actually sent — carries version number
exactly one above the locally held one (no re-fetch), and on a
successful response the stored local record becomes exactly the
server's returned representation. -/
theorem spec_C3_version_increment_and_adopt_server (env : Env)
    (st : ViewState) (c : PageRecord) :
    (∀ pay, (update_from_editor env st c).data = some pay →
      pay.version = some { number := c.version + 1, minorEdit := false })
    ∧ (∀ cid2 nd, Call.put cid2 nd ∈ (update_from_editor env st c).calls →
      nd.version = some { number := c.version + 1, minorEdit := false })
    ∧ ((update_from_editor env st c).outcome = .success →
      ∃ nd, Call.put c.id nd ∈ (update_from_editor env st c).calls ∧
        (update_from_editor env st c).newSetting =
          some (env.transport.put_content c.id nd).json) := by
  cases hnc : editorNewContent env st with
  | error e =>
    refine ⟨fun pay h => ?_, fun cid2 nd h => ?_, fun h => ?_⟩ <;>
      simp [update_from_editor, hnc] at h
  | ok new_content =>
    rcases huc : update_content env c.id (editorPayload c new_content)
      st.file_name with ⟨res, calls⟩
    have hmem : ∀ cid2 nd, Call.put cid2 nd ∈ calls →
        nd.version = some { number := c.version + 1, minorEdit := false } := by
      intro cid2 nd hin
      have hin2 : Call.put cid2 nd ∈
          (update_content env c.id (editorPayload c new_content) st.file_name).2 := by
        rw [huc]
        exact hin
      have := (update_content_put_calls env c.id (editorPayload c new_content)
        st.file_name cid2 nd hin2).2
      simpa [editorPayload] using this
    cases res with
    | error e2 =>
      refine ⟨fun pay h => ?_, fun cid2 nd h => ?_, fun h => ?_⟩
      · simp [update_from_editor, hnc, huc] at h
        simp [← h, editorPayload]
      · simp [update_from_editor, hnc, huc] at h
        exact hmem cid2 nd h
      · simp [update_from_editor, hnc, huc] at h
    | ok pr =>
      obtain ⟨resp, m⟩ := pr
      cases hro : resp.isOk with
      | false =>
        refine ⟨fun pay h => ?_, fun cid2 nd h => ?_, fun h => ?_⟩
        · simp [update_from_editor, hnc, huc, hro] at h
          simp [← h, editorPayload]
        · simp [update_from_editor, hnc, huc, hro] at h
          exact hmem cid2 nd h
        · simp [update_from_editor, hnc, huc, hro] at h
      | true =>
        refine ⟨fun pay h => ?_, fun cid2 nd h => ?_, fun _ => ?_⟩
        · simp [update_from_editor, hnc, huc, hro] at h
          simp [← h, editorPayload]
        · simp [update_from_editor, hnc, huc, hro] at h
          exact hmem cid2 nd h
        · obtain ⟨nd, h1, h2, _⟩ := update_content_ok_resp env c.id
            (editorPayload c new_content) st.file_name resp m calls huc hro
          refine ⟨nd, ?_, ?_⟩
          · simp [update_from_editor, hnc, huc, hro]
            exact h2
          · have hro2 : (env.transport.put_content c.id nd).ok = true := by
              rw [h1] at hro
              simpa [AnyResp.isOk] using hro
            simp [update_from_editor, hnc, huc, hro, h1, hro2, AnyResp.isOk,
              AnyResp.jsonPage]

/-- One successful step of the upload loop with more entries left:
the loop continues on the tail, with this entry's request recorded. -/
theorem create_or_update_attachments_cons_ok (env : Env) (content_id : String)
    (r : Resource) (rest : List Resource) (hne : rest ≠ [])
    (hok : ((upload_child_attachment env content_id r).1).ok = true) :
    create_or_update_attachments env content_id (r :: rest) =
      ((create_or_update_attachments env content_id rest).1,
        (upload_child_attachment env content_id r).2 ::
          (create_or_update_attachments env content_id rest).2) := by
  cases rest with
  | nil => exact absurd rfl hne
  | cons a b => simp [create_or_update_attachments, hok]

/-- C4: if entry `i` is the first manifest entry whose upload response
is not successful, the uploader returns exactly that failing response
and the requests actually issued are precisely those for entries
`0..i` — no later entry is attempted. -/
theorem spec_C4_upload_short_circuit (env : Env) (content_id : String) :
    ∀ (resources : List Resource) (i : Nat) (hi : i < resources.length),
      (∀ j (hj : j < i),
        ((upload_child_attachment env content_id
          (resources.get ⟨j, Nat.lt_trans hj hi⟩)).1).ok = true) →
      ((upload_child_attachment env content_id
        (resources.get ⟨i, hi⟩)).1).ok = false →
      create_or_update_attachments env content_id resources =
        (.resp (upload_child_attachment env content_id
            (resources.get ⟨i, hi⟩)).1,
          (resources.take (i + 1)).map
            (fun r => (upload_child_attachment env content_id r).2))
  | [], i, hi, _, _ => absurd hi (by simp)
  | r :: rest, 0, hi, _, hfail => by
    simp only [List.get] at hfail
    simp [create_or_update_attachments, hfail]
  | r :: rest, Nat.succ k, hi, hok, hfail => by
    have h0 : ((upload_child_attachment env content_id r).1).ok = true := by
      have := hok 0 (Nat.succ_pos k)
      simpa using this
    have hk : k < rest.length := by simpa using hi
    cases rest with
    | nil => simp at hk
    | cons r2 rest2 =>
      have hok2 : ∀ j (hj : j < k),
          ((upload_child_attachment env content_id
            ((r2 :: rest2).get ⟨j, Nat.lt_trans hj hk⟩)).1).ok = true := by
        intro j hj
        have := hok (j + 1) (Nat.succ_lt_succ hj)
        simpa using this
      have hfail2 : ((upload_child_attachment env content_id
          ((r2 :: rest2).get ⟨k, hk⟩)).1).ok = false := by
        simpa using hfail
      have ih := spec_C4_upload_short_circuit env content_id (r2 :: rest2) k hk
        hok2 hfail2
      rw [create_or_update_attachments_cons_ok env content_id r (r2 :: rest2)
        (by simp) h0, ih]
      simp

/-- C5: rewriting a payload whose parsed body has zero `img` elements
(with the `lxml` capability present) returns the body — as
re-serialized from its parse tree — with exactly the three
whole-document substitutions applied, and an empty resource
manifest. -/
theorem spec_C5_no_img_only_substitutions (env : Env) (data : WirePayload)
    (fn : String) (bodyVal : String)
    (hp : env.htmlPrettify = true) (hb : data.body = some bodyVal)
    (h0 : countTag "img" (env.parseHtml bodyVal) = 0) :
    extract_images env data fn =
      .ok ({ data with
              body := some (applySubstitutions
                (env.tostring (env.parseHtml bodyVal))) },
           []) := by
  unfold extract_images
  simp [hp, hb, rewriteNode_noImg env.isfile (ensureSep (env.dirOf fn))
    (env.parseHtml bodyVal) h0]

/-- C6: a document with no blank line still terminates the front-matter
scan (the loop simply runs off the end of the line list — the embedded
parser is a total function) and the returned body is empty. -/
theorem spec_C6_no_blank_line_empty_body (s : String)
    (h : ∀ l ∈ pySplitlines s, pyStrip l ≠ "") :
    (get_meta_and_content s).2 = [] := by
  unfold get_meta_and_content
  exact metaLoop_no_blank (pySplitlines s) {} h

/-- C8: when every `img` carries a `src`, the rewriter raises no
exception; each `img` — whether or not its resolved file exists — is
rewritten into an `ac:image` macro (no `img` remains), and the
manifest has exactly one entry per `img` whose resolved file exists,
so missing files add no entry and cause no error. -/
theorem spec_C8_missing_file_lenient (isfile : String → Bool)
    (file_dir : String) (h : Html) (hsrc : imgsHaveSrc h = true) :
    ∃ p, rewriteNode isfile file_dir h = .ok p ∧
      p.2.length = countExistingImg isfile file_dir h ∧
      countTag "img" p.1 = 0 ∧
      countTag "ac:image" p.1 = countTag "img" h + countTag "ac:image" h :=
  rewriteNode_src_total isfile file_dir h hsrc

/-- C10: the uploader's result is only defined for non-empty manifests
— the empty manifest hits the unbound `upload_resp` (`NameError`) —
and both `create_content` and `update_content` are total in spite of
it, because they invoke the uploader only when the manifest is
non-empty. -/
theorem spec_C10_uploader_totality :
    (∀ (env : Env) (content_id : String),
      create_or_update_attachments env content_id [] = (.nameError, []))
    ∧ (∀ (env : Env) (data : WirePayload) (fn : String),
      (create_content env data fn).1 ≠ .error .nameError)
    ∧ (∀ (env : Env) (content_id : String) (data : WirePayload) (fn : String),
      (update_content env content_id data fn).1 ≠ .error .nameError) := by
  refine ⟨fun env content_id => rfl, ?_, ?_⟩
  · intro env data fn h
    unfold create_content at h
    cases hext : extract_images env data fn with
    | error e =>
      rw [hext] at h
      simp at h
      rw [h] at hext
      exact extract_images_ne_nameError env data fn hext
    | ok p =>
      obtain ⟨nd, images⟩ := p
      rw [hext] at h
      cases hok : (env.transport.post_content nd).ok with
      | false => simp [hok] at h
      | true =>
        cases images with
        | nil => simp [hok] at h
        | cons i is =>
          cases hu : (create_or_update_attachments env
              (env.transport.post_content nd).json.id (i :: is)).1 with
          | nameError =>
            exact absurd hu (create_or_update_attachments_ne_nameError
              (i :: is) (by simp) env ((env.transport.post_content nd).json.id))
          | resp u => cases hu2 : u.ok <;> simp [hok, hu, hu2] at h
  · intro env content_id data fn h
    unfold update_content at h
    cases hext : extract_images env data fn with
    | error e =>
      rw [hext] at h
      simp at h
      rw [h] at hext
      exact extract_images_ne_nameError env data fn hext
    | ok p =>
      obtain ⟨nd, images⟩ := p
      rw [hext] at h
      cases hok : (env.transport.put_content content_id nd).ok with
      | false => simp [hok] at h
      | true =>
        cases images with
        | nil => simp [hok] at h
        | cons i is =>
          cases hu : (create_or_update_attachments env content_id (i :: is)).1 with
          | nameError =>
            exact absurd hu (create_or_update_attachments_ne_nameError
              (i :: is) (by simp) env content_id)
          | resp u => cases hu2 : u.ok <;> simp [hok, hu, hu2] at h


/-- `splitAtFirstColon` fails exactly on colon-free lists. -/
theorem splitAtFirstColon_eq_none :
    ∀ cs : List Char, splitAtFirstColon cs = none ↔ ':' ∉ cs
  | [] => by simp [splitAtFirstColon]
  | c :: cs => by
    by_cases hc : c = ':'
    · subst hc
      simp [splitAtFirstColon]
    · simp only [splitAtFirstColon, if_neg hc, splitAtFirstColon_eq_none cs,
        List.mem_cons, not_or]
      constructor
      · intro hn
        exact ⟨fun he => hc he.symm, hn⟩
      · intro hn
        exact hn.2

/-- A successful `splitAtFirstColon` decomposes the list at its first
colon. -/
theorem splitAtFirstColon_eq_some :
    ∀ cs r : List Char, splitAtFirstColon cs = some r →
      ∃ a, cs = a ++ ':' :: r ∧ ':' ∉ a
  | [], r, h => by simp [splitAtFirstColon] at h
  | c :: cs, r, h => by
    by_cases hc : c = ':'
    · subst hc
      simp [splitAtFirstColon] at h
      exact ⟨[], by simp [h]⟩
    · simp only [splitAtFirstColon, if_neg hc] at h
      obtain ⟨a, ha, hna⟩ := splitAtFirstColon_eq_some cs r h
      refine ⟨c :: a, by simp [ha], ?_⟩
      intro hmem
      rcases List.mem_cons.mp hmem with he | hm
      · exact hc he.symm
      · exact hna hm

/-- A `takeWhile` stops strictly inside the left part of an append when
some element there fails the predicate. -/
theorem takeWhile_append_of_exists (p : Char → Bool) :
    ∀ (xs ys : List Char), (∃ x ∈ xs, p x = false) →
      (xs ++ ys).takeWhile p = xs.takeWhile p
  | [], _, hex => by simp at hex
  | x :: xs, ys, hex => by
    by_cases hx : p x
    · have hex2 : ∃ a ∈ xs, p a = false := by
        obtain ⟨a, ha, hpa⟩ := hex
        rcases List.mem_cons.mp ha with rfl | ha2
        · rw [hx] at hpa
          cases hpa
        · exact ⟨a, ha2, hpa⟩
      simp [List.takeWhile, hx, takeWhile_append_of_exists p xs ys hex2]
    · simp only [Bool.not_eq_true] at hx
      simp [List.takeWhile, hx]

/-- A `takeWhile` passes over a left part all of whose elements satisfy
the predicate. -/
theorem takeWhile_append_of_all (p : Char → Bool) :
    ∀ (xs ys : List Char), (∀ x ∈ xs, p x = true) →
      (xs ++ ys).takeWhile p = xs ++ ys.takeWhile p
  | [], ys, _ => by simp
  | x :: xs, ys, hall => by
    have hx : p x = true := hall x (by simp)
    simp [List.takeWhile, hx,
      takeWhile_append_of_all p xs ys (fun a ha => hall a (by simp [ha]))]

/-- The suffix after the last colon of `a ++ ':' :: r` when `r` is
colon-free: exactly `r`. -/
theorem suffixAfterLastColon_append_last (a r : List Char) (h : ':' ∉ r) :
    suffixAfterLastColon (a ++ ':' :: r) = r := by
  unfold suffixAfterLastColon
  rw [List.reverse_append, List.reverse_cons, List.append_assoc]
  have hall : ∀ x ∈ r.reverse, (fun c => decide (c ≠ ':')) x = true := by
    intro x hx
    have hxr : x ∈ r := List.mem_reverse.mp hx
    simp only [decide_eq_true_eq]
    intro he
    subst he
    exact h hxr
  rw [takeWhile_append_of_all _ r.reverse _ hall]
  simp

/-- The suffix after the last colon of `a ++ ':' :: r` when `r` still
contains a colon: the suffix after the last colon of `r`. -/
theorem suffixAfterLastColon_append_mem (a r : List Char) (h : ':' ∈ r) :
    suffixAfterLastColon (a ++ ':' :: r) = suffixAfterLastColon r := by
  unfold suffixAfterLastColon
  rw [List.reverse_append, List.reverse_cons, List.append_assoc]
  rw [takeWhile_append_of_exists _ r.reverse _
    ⟨':', List.mem_reverse.mpr h, by simp⟩]

/-- Prepending one character does not change the suffix after the last
colon when a colon occurs later. -/
theorem suffixAfterLastColon_cons_of_mem (x : Char) (r : List Char)
    (h : ':' ∈ r) :
    suffixAfterLastColon (x :: r) = suffixAfterLastColon r := by
  unfold suffixAfterLastColon
  rw [List.reverse_cons, takeWhile_append_of_exists _ r.reverse _
    ⟨':', List.mem_reverse.mpr h, by simp⟩]

/-- Dropping leading spaces does not affect colon membership. -/
theorem colon_mem_dropWhile_spaces :
    ∀ r : List Char, ':' ∈ r.dropWhile (fun c => c = ' ') ↔ ':' ∈ r
  | [] => by simp
  | c :: r => by
    by_cases hc : c = ' '
    · subst hc
      simp [List.dropWhile, colon_mem_dropWhile_spaces r]
    · simp [List.dropWhile, hc]

/-- Dropping leading spaces does not change the suffix after the last
colon, when a colon is present. -/
theorem suffixAfterLastColon_dropWhile_spaces :
    ∀ r : List Char, ':' ∈ r →
      suffixAfterLastColon (r.dropWhile (fun c => c = ' ')) =
        suffixAfterLastColon r
  | [], h => by simp at h
  | c :: r, h => by
    by_cases hc : c = ' '
    · subst hc
      have hr : ':' ∈ r := by
        rcases List.mem_cons.mp h with he | hr
        · exact absurd he (by decide)
        · exact hr
      have hd : (' ' :: r).dropWhile (fun c => c = ' ') =
          r.dropWhile (fun c => c = ' ') := by
        simp [List.dropWhile]
      rw [hd, suffixAfterLastColon_dropWhile_spaces r hr,
        suffixAfterLastColon_cons_of_mem ' ' r hr]
    · have hd : (c :: r).dropWhile (fun c => c = ' ') = c :: r := by
        simp [List.dropWhile, hc]
      rw [hd]

/-- Dropping a prefix never lengthens a list. -/
theorem length_dropWhile_le_len (p : Char → Bool) :
    ∀ l : List Char, (l.dropWhile p).length ≤ l.length
  | [] => Nat.le_refl _
  | c :: l => by
    by_cases hc : p c
    · simp only [List.dropWhile, hc]
      exact Nat.le_succ_of_le (length_dropWhile_le_len p l)
    · simp only [List.dropWhile, hc]
      exact Nat.le_refl _

/-- With enough fuel (at least the list length), the fuelled model of
`re.sub("[^:]*: *", "", ...)` computes the closed form: the suffix
after the last colon with its following spaces dropped. -/
theorem subColonAux_eq_spec :
    ∀ (fuel : Nat) (cs : List Char), cs.length ≤ fuel →
      subColonAux fuel cs = remainderSpecL cs
  | 0, cs, hle => by
    have h0 : cs = [] := List.eq_nil_of_length_eq_zero (Nat.le_zero.mp hle)
    subst h0
    simp [subColonAux, remainderSpecL]
  | Nat.succ fuel, cs, hle => by
    cases hsp : splitAtFirstColon cs with
    | none =>
      have hno : ':' ∉ cs := (splitAtFirstColon_eq_none cs).mp hsp
      simp [subColonAux, hsp, remainderSpecL, hno]
    | some rest =>
      obtain ⟨a, ha, _⟩ := splitAtFirstColon_eq_some cs rest hsp
      have hlen : rest.length < cs.length := by
        subst ha
        simp only [List.length_append, List.length_cons]
        omega
      have hlen2 : (rest.dropWhile (fun c => c = ' ')).length ≤ fuel := by
        have hdw : (rest.dropWhile (fun c => c = ' ')).length ≤ rest.length :=
          length_dropWhile_le_len _ rest
        omega
      have ih := subColonAux_eq_spec fuel (rest.dropWhile (fun c => c = ' ')) hlen2
      have hmemcs : ':' ∈ cs := by
        subst ha
        simp
      by_cases hmem : ':' ∈ rest
      · have hmem2 : ':' ∈ rest.dropWhile (fun c => c = ' ') :=
          (colon_mem_dropWhile_spaces rest).mpr hmem
        simp only [subColonAux, hsp, ih, remainderSpecL, if_pos hmem2,
          if_pos hmemcs]
        rw [suffixAfterLastColon_dropWhile_spaces rest hmem]
        subst ha
        rw [suffixAfterLastColon_append_mem a rest hmem]
      · have hmem2 : ':' ∉ rest.dropWhile (fun c => c = ' ') := by
          intro hx
          exact hmem ((colon_mem_dropWhile_spaces rest).mp hx)
        simp only [subColonAux, hsp, ih, remainderSpecL, if_neg hmem2,
          if_pos hmemcs]
        subst ha
        rw [suffixAfterLastColon_append_last a rest hmem]

/-- The remainder stored by the source's `re.sub("[^:]*: *", "", entry)`
is the text of the line after its last colon, with the spaces directly
following that colon dropped (the whole line when it has no colon). -/
theorem subColonRuns_eq_remainderSpec (s : String) :
    subColonRuns s = remainderSpec s := by
  unfold subColonRuns remainderSpec
  rw [subColonAux_eq_spec s.toList.length s.toList (Nat.le_refl _)]

/-- The source's per-line step agrees with the amended-claim reference
step. -/
theorem metaStep_eq_metaSpecStep (m : FrontMatter) (e : String) :
    metaStep m e = metaSpecStep m e := by
  unfold metaStep metaSpecStep
  simp only [subColonRuns_eq_remainderSpec]

/-- Folding the source's step equals folding the reference step. -/
theorem foldl_metaStep_eq :
    ∀ (pre : List String) (m : FrontMatter),
      pre.foldl metaStep m = pre.foldl metaSpecStep m
  | [], _ => rfl
  | l :: pre, m => by
    rw [List.foldl_cons, List.foldl_cons, metaStep_eq_metaSpecStep,
      foldl_metaStep_eq pre _]

/-- The scanning loop on non-blank lines followed by a blank line and a
tail: folds the step over the non-blank lines and returns the tail as
the body. -/
theorem metaLoop_decomp (blank : String) (post : List String)
    (hblank : pyStrip blank = "") :
    ∀ (pre : List String) (m : FrontMatter), (∀ l ∈ pre, pyStrip l ≠ "") →
      metaLoop m (pre ++ blank :: post) = (pre.foldl metaStep m, post)
  | [], m, _ => by
    simp [metaLoop, hblank]
  | l :: pre, m, hpre => by
    have hl : pyStrip l ≠ "" := hpre l (by simp)
    simp only [List.cons_append, metaLoop, if_pos hl, List.foldl_cons]
    exact metaLoop_decomp blank post hblank pre (metaStep m l)
      (fun x hx => hpre x (by simp [hx]))

/-- C7 (amended): on non-blank lines before the first blank line the
parser matches the three prefixes with only the leading letter
case-tolerant; a matching line stores the text after its last colon
(with the spaces following that colon dropped); the first blank line
ends the front matter and the body is exactly the lines after it. -/
theorem spec_C7_front_matter_amended (pre : List String) (blank : String)
    (post : List String) (hpre : ∀ l ∈ pre, pyStrip l ≠ "")
    (hblank : pyStrip blank = "") :
    metaLoop {} (pre ++ blank :: post) = (metaSpec pre, post) := by
  rw [metaLoop_decomp blank post hblank pre {} hpre]
  unfold metaSpec
  rw [foldl_metaStep_eq]

/-- C7 (counterexample to the claim as stated): the claim predicts that
`SPACE: ENG` is recognized (any capitalization of the prefix) storing
`ENG`, and that `Title: C: drive` stores the text after the first
colon, `C: drive`. The code recognizes neither: it stores nothing for
`SPACE: ENG`, and stores `drive` (the text after the last colon) for
`Title: C: drive`. -/
theorem spec_C7_counterexample :
    (get_meta_and_content "SPACE: ENG\n\nbody").1.space_key = none ∧
    (get_meta_and_content "Title: C: drive\n\nx").1.title = some "drive" := by
  refine ⟨?_, ?_⟩ <;> decide

/-- Witness for the amended C7 on a concrete document. -/
theorem spec_C7_front_matter_amended_witness :
    (∀ l ∈ ["space: ENG", "Ancestor Title: A: B", "junk"], pyStrip l ≠ "") ∧
    pyStrip " " = "" ∧
    metaLoop {} (["space: ENG", "Ancestor Title: A: B", "junk"] ++
        " " :: ["body1", "body2"]) =
      (metaSpec ["space: ENG", "Ancestor Title: A: B", "junk"],
        ["body1", "body2"]) :=
  ⟨by decide, by decide,
    spec_C7_front_matter_amended ["space: ENG", "Ancestor Title: A: B", "junk"]
      " " ["body1", "body2"] (by decide) (by decide)⟩

/-! ## Concrete environments for witnesses and counterexamples -/

/-- A page record with all fields empty. -/
def dummyPage : PageRecord :=
  { id := "", title := "", space_key := "", version := 0, body_value := ""
    base := "", webui := "" }

/-- A transport whose every response is a failure. -/
def noTransport : Transport :=
  { get_content := fun _ => { ok := false, reason := "", text := "", json := dummyPage }
    search := fun _ => { ok := false, reason := "", text := "", results := [] }
    post_content := fun _ => { ok := false, reason := "", text := "", json := dummyPage }
    put_content := fun _ _ => { ok := false, reason := "", text := "", json := dummyPage }
    put_attachment := fun _ => { ok := false, reason := "", text := "" } }

/-- A concrete environment: no `lxml` capability, identity markdown
conversion, no `docutils`, failing transport. -/
def baseEnv : Env :=
  { htmlPrettify := false
    parseHtml := fun s => .text s
    tostring := fun h => match h with | .text s => s | .elem _ _ _ => ""
    dirOf := fun _ => "/tmp"
    isfile := fun _ => false
    guessType := fun _ => none
    markdown := fun s => s
    docutils := none
    transport := noTransport }

/-- A page record standing for an existing remote page. -/
def pageA : PageRecord :=
  { id := "123", title := "T", space_key := "S", version := 4
    body_value := "<p>x</p>", base := "http://w", webui := "/x" }

/-- A transport whose every response succeeds, returning `pageA`. -/
def okTransport : Transport :=
  { get_content := fun _ => { ok := true, reason := "", text := "", json := pageA }
    search := fun _ => { ok := true, reason := "", text := "", results := [pageA] }
    post_content := fun _ => { ok := true, reason := "", text := "", json := pageA }
    put_content := fun _ _ => { ok := true, reason := "", text := "", json := pageA }
    put_attachment := fun _ => { ok := true, reason := "", text := "" } }

/-- C1 (amended): with a `NEW` record (absent or id-less/falsy
`confluence_content`) the update command dispatches to the
source-lookup path `update_from_source`, which re-resolves the page by
space and title over the network; the no-network PreconditionFailed
outcome (the invalid-page error) occurs there exactly when the markup
conversion yields a falsy result. -/
theorem spec_C1_new_record_dispatch (env : Env) (st : ViewState)
    (hnew : isNewState st = true) :
    updateCmdRun env st = update_from_source env st
    ∧ (∀ v, to_html env (joinLines (get_meta_and_content st.bufferText).2)
        st.syntaxName = .ok v →
      optStrFalsy v = true →
      update_from_source env st =
        { outcome := .errorMsg
            "Can't update: this doesn't appear to be a valid Confluence page."
          calls := [], newSetting := none }) := by
  constructor
  · unfold updateCmdRun isNewState at *
    cases hc : st.confluence_content with
    | none => simp [hc]
    | some c =>
      rw [hc] at hnew
      simp only [decide_eq_true_eq] at hnew
      simp [hc, hnew]
  · intro v hv hfal
    simp [update_from_source, hv, hfal]

/-- The view state of a buffer never fetched from the wiki
(`confluence_content` unset) with an unsupported markup name. -/
def stC1w : ViewState :=
  { confluence_content := none, bufferText := "hello", syntaxName := "Text"
    file_name := "/tmp/a.md" }

/-- Witness for C1 (amended): unsupported markup on a `NEW` record —
source-path dispatch, invalid-page error, empty call trace. -/
theorem spec_C1_new_record_dispatch_witness :
    updateCmdRun baseEnv stC1w = update_from_source baseEnv stC1w ∧
    update_from_source baseEnv stC1w =
      { outcome := .errorMsg
          "Can't update: this doesn't appear to be a valid Confluence page."
        calls := [], newSetting := none } :=
  ⟨(spec_C1_new_record_dispatch baseEnv stC1w (by decide)).1,
   (spec_C1_new_record_dispatch baseEnv stC1w (by decide)).2 none rfl rfl⟩

/-- An environment in which every request succeeds. -/
def envAllOk : Env := { baseEnv with transport := okTransport }

/-- A `NEW`-state buffer holding a well-formed Markdown document. -/
def stC1c : ViewState :=
  { confluence_content := none, bufferText := "Space: S\nTitle: T\n\nbody"
    syntaxName := "Markdown", file_name := "/tmp/a.md" }

/-- C1 (counterexample to the claim as stated): on a `NEW` record with
a well-formed document the update command issues network calls (it
re-resolves the page by title and updates it), rather than failing
with PreconditionFailed and no network call. -/
theorem spec_C1_counterexample : (updateCmdRun envAllOk stC1c).calls ≠ [] := by
  decide

/-- The environment of the C2 failing input: transport-level success
with zero search results. -/
def envC2 : Env :=
  { baseEnv with
      transport :=
        { noTransport with
            search := fun _ => { ok := true, reason := "", text := "", results := [] } } }

/-- The C2 failing input: a well-formed document whose ancestor search
returns ok with zero results. -/
def stC2 : ViewState :=
  { confluence_content := none
    bufferText := "Space: ENG\nAncestor Title: Home\nTitle: My Page\n\nhello"
    syntaxName := "Markdown", file_name := "/tmp/doc.md" }

/-- C2 (code bug): when the ancestor search succeeds at the transport
level but returns zero results, the create command raises an uncaught
`IndexError` at `response.json()["results"][0]` — it does not yield
the PreconditionFailed message referencing the missing ancestor that
the spec requires. The half of the claim that holds: only the search
call was issued, so no create request reaches the wire. -/
theorem spec_C2_zero_results_crash :
    postCmd envC2 stC2 =
      { outcome := .exn .indexError
        calls := [Call.search "type=page AND space=\"ENG\" AND title=\"Home\""]
        newSetting := none } := by
  decide

/-- C9 (amended): every attachment upload request is a `PUT` (not a
`POST`) of `content/{id}/child/attachment`, its headers are exactly
`X-Atlassian-Token: no-check` (replacing the default json headers),
and its content type is guessed from the attachment's path with the
generic multipart fallback. -/
theorem spec_C9_upload_request_shape (env : Env) (content_id : String)
    (att : Resource) :
    ((upload_child_attachment env content_id att).2).method = "put" ∧
    ((upload_child_attachment env content_id att).2).sub_uri =
      "content/" ++ content_id ++ "/child/attachment" ∧
    ((upload_child_attachment env content_id att).2).headers =
      [("X-Atlassian-Token", "no-check")] ∧
    ((upload_child_attachment env content_id att).2).contentType =
      (env.guessType att.fullpath).getD "multipart/form-data" :=
  ⟨rfl, rfl, rfl, rfl⟩

/-- C9 (counterexample to the claim as stated): the upload request's
method is not `POST` — the source calls `self._put`. -/
theorem spec_C9_counterexample :
    ((upload_child_attachment baseEnv "7" ⟨"a.png", "/tmp/a.png"⟩).2).method ≠
      "post" := by
  decide

/-- A three-entry manifest whose second upload fails. -/
def c4res : List Resource :=
  [⟨"a.bin", "/r/a.bin"⟩, ⟨"b.bin", "/r/b.bin"⟩, ⟨"c.bin", "/r/c.bin"⟩]

/-- An environment whose attachment endpoint rejects exactly the upload
of `b.bin`. -/
def envC4 : Env :=
  { baseEnv with
      transport :=
        { noTransport with
            put_attachment := fun req =>
              { ok := req.filename != "b.bin", reason := "", text := "" } } }

/-- Witness for C4: with entry 2 of 3 failing, the uploader returns
entry 2's failing response and only the first two requests are issued. -/
theorem spec_C4_upload_short_circuit_witness :
    ((upload_child_attachment envC4 "9" (c4res.get ⟨1, by decide⟩)).1).ok = false ∧
    create_or_update_attachments envC4 "9" c4res =
      (.resp (upload_child_attachment envC4 "9" (c4res.get ⟨1, by decide⟩)).1,
        (c4res.take 2).map (fun r => (upload_child_attachment envC4 "9" r).2)) :=
  ⟨by decide,
    spec_C4_upload_short_circuit envC4 "9" c4res 1 (by decide)
      (by decide) (by decide)⟩

/-- An environment with the `lxml` capability present. -/
def envPrettify : Env := { baseEnv with htmlPrettify := true }

/-- A payload whose body has no `img` element but hits one of the three
whole-document substitutions. -/
def payloadC5 : WirePayload :=
  { id := none, type := "page", title := "t", space_key := "s"
    ancestors := none, version := none, body := some "hi [TOC]" }

/-- Witness for C5 on a concrete image-free body. -/
theorem spec_C5_no_img_only_substitutions_witness :
    envPrettify.htmlPrettify = true ∧
    payloadC5.body = some "hi [TOC]" ∧
    countTag "img" (envPrettify.parseHtml "hi [TOC]") = 0 ∧
    extract_images envPrettify payloadC5 "/tmp/a.md" =
      .ok ({ payloadC5 with
              body := some (applySubstitutions
                (envPrettify.tostring (envPrettify.parseHtml "hi [TOC]"))) },
           []) :=
  ⟨rfl, rfl, by decide,
    spec_C5_no_img_only_substitutions envPrettify payloadC5 "/tmp/a.md"
      "hi [TOC]" rfl rfl (by decide)⟩

/-- Witness for C6 on a concrete two-line document with no blank line. -/
theorem spec_C6_no_blank_line_empty_body_witness :
    (∀ l ∈ pySplitlines "Space: A\nTitle: B", pyStrip l ≠ "") ∧
    (get_meta_and_content "Space: A\nTitle: B").2 = [] :=
  ⟨by decide,
    spec_C6_no_blank_line_empty_body "Space: A\nTitle: B" (by decide)⟩

/-- A document with two images, only the first of which resolves to an
existing file under `/d/`. -/
def docC8 : Html :=
  .elem "div" []
    [.elem "img" [("src", "a.png")] [], .elem "img" [("src", "b.png")] []]

/-- A file-existence oracle knowing only `/d/a.png`. -/
def isfileC8 : String → Bool := fun s => s == "/d/a.png"

/-- Witness for C8: one existing and one missing image — no exception,
both rewritten to macros, one manifest entry. -/
theorem spec_C8_missing_file_lenient_witness :
    imgsHaveSrc docC8 = true ∧
    (∃ p, rewriteNode isfileC8 "/d/" docC8 = .ok p ∧
      p.2.length = countExistingImg isfileC8 "/d/" docC8 ∧
      countTag "img" p.1 = 0 ∧
      countTag "ac:image" p.1 =
        countTag "img" docC8 + countTag "ac:image" docC8) :=
  ⟨by decide, spec_C8_missing_file_lenient isfileC8 "/d/" docC8 (by decide)⟩
